import Mathlib

/-!
Verification of the MLB-rule-changes data-harvesting scripts.

Each Python script fetches MLB schedule/live-feed documents and extracts
flat records.  The pure extraction logic of each script is embedded below
as executable Lean definitions; HTTP responses are modelled by `HResp`
(either a transport-level failure or a status code with a typed body), and
Python exceptions that can escape a function are modelled by `Except PyExn`.
Timestamp parsing (an external library concern) is abstracted as a
`String → Int` parameter where a script computes durations.
-/

/-- A Python exception escaping an extraction or fetch function. -/
inductive PyExn where
  | transport
  | keyError
  | indexError
deriving DecidableEq, Repr

/-- Outcome of one HTTP request: a connection-level failure, or a response
with a status code and a (typed) JSON body. -/
inductive HResp (β : Type) where
  | transportFail
  | ok (status : Nat) (body : β)

/- ===== ConcurrencyGate (asyncio.Semaphore(10) in each script's main) ===== -/

/-- Phase of one fetch task with respect to the semaphore:
before acquiring a permit, holding a permit (request in flight),
or finished (permit released on any exit path). -/
inductive Phase where
  | pending
  | inflight
  | done
deriving DecidableEq, Repr

/-- State of the gate: available permits plus the phase of every task. -/
structure GateState where
  permits : Nat
  tasks : List Phase
deriving DecidableEq, Repr

/-- Initial state: full permit pool, all tasks yet to acquire. -/
def initState (cap n : Nat) : GateState :=
  { permits := cap, tasks := List.replicate n Phase.pending }

/-- Number of tasks currently in a given phase. -/
def countPhase (ph : Phase) : List Phase → Nat
  | [] => 0
  | p :: ps => (if p = ph then 1 else 0) + countPhase ph ps

/-- Modelled from the spec: semantics of the semaphore guarding each fetch
(`async with semaphore:` around `session.get`).  Acquire suspends until a
permit is free and consumes one; release returns the permit on every exit
path (success, failure, or cancellation), so the only transition out of
`inflight` restores a permit. -/
inductive Step : GateState → GateState → Prop where
  | acquire (s : GateState) (i : Nat) (h : s.tasks[i]? = some Phase.pending)
      (hp : 0 < s.permits) :
      Step s { permits := s.permits - 1, tasks := s.tasks.set i Phase.inflight }
  | release (s : GateState) (i : Nat) (h : s.tasks[i]? = some Phase.inflight) :
      Step s { permits := s.permits + 1, tasks := s.tasks.set i Phase.done }

/-- States reachable from the initial gate state by any interleaving. -/
inductive Reachable (cap n : Nat) : GateState → Prop where
  | init : Reachable cap n (initState cap n)
  | step {s s' : GateState} : Reachable cap n s → Step s s' → Reachable cap n s'

/-- Capacity configured in every script: `asyncio.Semaphore(10)`. -/
def gateCapacity : Nat := 10

/- ===== Substring matching (Python `"pitching change" in description`) ===== -/

/-- `listPre n l`: `n` is an initial segment of `l`. -/
def listPre : List Char → List Char → Bool
  | [], _ => true
  | _ :: _, [] => false
  | a :: as, b :: bs => a == b && listPre as bs

/-- `listSub n l`: `n` occurs contiguously inside `l`. -/
def listSub (needle : List Char) : List Char → Bool
  | [] => listPre needle []
  | b :: bs => listPre needle (b :: bs) || listSub needle bs

/-- Python `needle in hay` on strings. -/
def strContainsSub (hay needle : String) : Bool :=
  listSub needle.data hay.data

/-- Python `str.lower()`, character by character. -/
def strLower (s : String) : String :=
  String.mk (s.data.map Char.toLower)

/- ===== get_extra_innings_games.py : fetch_game_details ===== -/

/-- One entry of `liveData.linescore.innings`: inning number (may be
absent) and `home.runs`/`away.runs`, which default to 0 when absent. -/
structure InnLine where
  num : Option Nat
  homeRuns : Nat
  awayRuns : Nat
deriving DecidableEq, Repr

/-- One entry of `liveData.plays.allPlays` as used by the extra-innings
extractor: `about.inning` (a required field) and `result.rbi`
(defaulting to 0 when absent). -/
structure XPlay where
  inning : Nat
  rbi : Nat
deriving DecidableEq, Repr

/-- The parts of a well-formed live-feed document read by
`fetch_game_details`: linescore innings, all plays, team names, final run
totals, and the game datetime. -/
structure XDoc where
  innings : List InnLine
  plays : List XPlay
  homeName : String
  awayName : String
  homeRunsFinal : Nat
  awayRunsFinal : Nat
  season : Nat
  gamePk : Nat
  gameDatetime : Option String
deriving DecidableEq, Repr

/-- Record emitted by `fetch_game_details` for an extra-innings game. -/
structure XRec where
  year : Nat
  game_datetime : Option String
  game_pk : Nat
  team_winner : String
  team_loser : String
  final_inning : Nat
  batters_until_first_run : Option Nat
  total_extra_runs : Nat
deriving DecidableEq, Repr

/-- The batters-counting loop of `fetch_game_details` (lines 99-109):
walk the plays, skip innings ≤ 9, count the rest, and stop at the first
counted play whose `result.rbi` is nonzero. -/
def battersUntilFirstRun (b : Nat) : List XPlay → Option Nat
  | [] => none
  | p :: rest =>
    if p.inning ≤ 9 then battersUntilFirstRun b rest
    else if p.rbi ≠ 0 then some (b + 1)
    else battersUntilFirstRun (b + 1) rest

/-- Extraction body of `fetch_game_details` (lines 80-134): emit nothing
for ≤ 9 innings, otherwise build the extra-innings record. -/
def fetch_game_details (doc : XDoc) : Option XRec :=
  if doc.innings.length ≤ 9 then none
  else
    let final_inning :=
      match doc.innings.getLast? with
      | some inn => inn.num.getD doc.innings.length
      | none => doc.innings.length
    let total_extra_runs :=
      ((doc.innings.filter fun inn => 9 < inn.num.getD 0).map
        fun inn => inn.homeRuns + inn.awayRuns).sum
    let winner_loser :=
      if doc.homeRunsFinal > doc.awayRunsFinal then (doc.homeName, doc.awayName)
      else (doc.awayName, doc.homeName)
    some
      { year := doc.season
        game_datetime := doc.gameDatetime
        game_pk := doc.gamePk
        team_winner := winner_loser.1
        team_loser := winner_loser.2
        final_inning := final_inning
        batters_until_first_run := battersUntilFirstRun 0 doc.plays
        total_extra_runs := total_extra_runs }

/-- Spec-side description of the batters-faced-in-extras count: among the
plays with inning > 9, the position (1-based) of the first one whose
result carries a nonzero run-batted-in value. -/
def specBattersFaced (plays : List XPlay) : Option Nat :=
  match (plays.filter fun p => 9 < p.inning).findIdx? (fun p => p.rbi ≠ 0) with
  | some i => some (i + 1)
  | none => none

/-- Spec-side description of total extra-inning runs: the sum of home plus
away runs over innings numbered greater than 9. -/
def specExtraRuns (innings : List InnLine) : Nat :=
  ((innings.filter fun inn => 9 < inn.num.getD 0).map
    fun inn => inn.homeRuns + inn.awayRuns).sum

/-- An 11-inning document whose innings 10 and 11 contribute 2 and 1
extra runs (spec §8 example). -/
def exDoc11 : XDoc :=
  { innings :=
      [⟨some 1, 0, 0⟩, ⟨some 2, 0, 1⟩, ⟨some 3, 0, 0⟩, ⟨some 4, 1, 0⟩,
       ⟨some 5, 0, 0⟩, ⟨some 6, 0, 0⟩, ⟨some 7, 0, 0⟩, ⟨some 8, 0, 0⟩,
       ⟨some 9, 0, 0⟩, ⟨some 10, 1, 1⟩, ⟨some 11, 1, 0⟩]
    plays := [⟨10, 0⟩, ⟨10, 1⟩, ⟨11, 1⟩]
    homeName := "Home"
    awayName := "Away"
    homeRunsFinal := 4
    awayRunsFinal := 3
    season := 2021
    gamePk := 100
    gameDatetime := some "2021-06-01T00:00:00Z" }

/-- A 9-inning document (spec §8 example: yields no record). -/
def exDoc9 : XDoc :=
  { innings :=
      [⟨some 1, 0, 0⟩, ⟨some 2, 0, 0⟩, ⟨some 3, 0, 0⟩, ⟨some 4, 0, 0⟩,
       ⟨some 5, 0, 0⟩, ⟨some 6, 0, 0⟩, ⟨some 7, 0, 0⟩, ⟨some 8, 0, 0⟩,
       ⟨some 9, 2, 1⟩]
    plays := []
    homeName := "Home"
    awayName := "Away"
    homeRunsFinal := 2
    awayRunsFinal := 1
    season := 2021
    gamePk := 101
    gameDatetime := none }

/-- A tied extra-innings document (home and away final runs equal). -/
def exDocTie : XDoc :=
  { innings :=
      [⟨some 1, 0, 0⟩, ⟨some 2, 0, 0⟩, ⟨some 3, 0, 0⟩, ⟨some 4, 0, 0⟩,
       ⟨some 5, 0, 0⟩, ⟨some 6, 0, 0⟩, ⟨some 7, 0, 0⟩, ⟨some 8, 0, 0⟩,
       ⟨some 9, 0, 0⟩, ⟨some 10, 0, 0⟩]
    plays := []
    homeName := "Home"
    awayName := "Away"
    homeRunsFinal := 3
    awayRunsFinal := 3
    season := 2021
    gamePk := 102
    gameDatetime := none }

/-- The record `fetch_game_details` produces on `exDocTie`. -/
def exRecTie : XRec :=
  { year := 2021
    game_datetime := none
    game_pk := 102
    team_winner := "Away"
    team_loser := "Home"
    final_inning := 10
    batters_until_first_run := none
    total_extra_runs := 0 }

/-- Response-level wrapper of `fetch_game_details` (lines 69-78): the
fetch is wrapped in try/except, so a transport failure or a non-200
status is downgraded to `none` for that game. -/
def fetch_game_details_resp (doc : XDoc → Option XRec) :
    HResp XDoc → Option XRec
  | HResp.transportFail => none
  | HResp.ok status body => if status ≠ 200 then none else doc body

/- ===== get_play_duration.py : fetch_play_durations ===== -/

/-- One play as read by the play-duration extractor: `about.startTime`
and `about.endTime`, each possibly absent. -/
structure DPlay where
  startTime : Option String
  endTime : Option String
deriving DecidableEq, Repr

/-- Live-feed body as read by `fetch_play_durations`: the chain
`data["liveData"]["plays"]["allPlays"]` is an unguarded item access, so it
is modelled as an optional field whose absence raises a KeyError. -/
structure DDoc where
  livePlays : Option (List DPlay)
deriving DecidableEq, Repr

/-- Record emitted per play by `fetch_play_durations`. -/
structure DRec where
  season : Nat
  game_pk : Nat
  startTime : String
  duration_sec : Int
deriving DecidableEq, Repr

/-- Python truthiness of an optional string (`if not start or not end`). -/
def truthyStr : Option String → Bool
  | none => false
  | some s => s ≠ ""

/-- `fetch_play_durations` (lines 44-79), with timestamp parsing
abstracted as `toTime`.  The fetch (lines 56-61) has no try/except: a
transport failure escapes as an exception; a non-200 status returns `[]`.
The extraction (lines 63-79) indexes `liveData.plays.allPlays` without a
guard, so its absence escapes as a KeyError. -/
def fetch_play_durations (toTime : String → Int) (season pk : Nat) :
    HResp DDoc → Except PyExn (List DRec)
  | HResp.transportFail => Except.error PyExn.transport
  | HResp.ok status body =>
    if status ≠ 200 then Except.ok []
    else
      match body.livePlays with
      | none => Except.error PyExn.keyError
      | some plays =>
        Except.ok <| plays.filterMap fun p =>
          match p.startTime, p.endTime with
          | some st, some et =>
            if truthyStr (some st) && truthyStr (some et) then
              some { season := season, game_pk := pk, startTime := st
                     duration_sec := toTime et - toTime st }
            else none
          | _, _ => none

/- ===== get_team_babip.py : fetch_season_team_babip ===== -/

/-- One team split of the season-aggregate response. -/
structure Split where
  teamId : Option Nat
  teamName : Option String
  babip : Option String
deriving DecidableEq, Repr

/-- One entry of the top-level `stats` array. -/
structure StatsGroup where
  splits : List Split
deriving DecidableEq, Repr

/-- Season-aggregate endpoint body: the top-level `stats` array. -/
structure TeamsResponse where
  stats : List StatsGroup
deriving DecidableEq, Repr

/-- Row built per split by `fetch_season_team_babip`. -/
structure BabipRow where
  season : Nat
  team_id : Option Nat
  team_name : Option String
  babip : Option String
deriving DecidableEq, Repr

/-- `fetch_season_team_babip` (lines 23-56).  A non-200 status returns
`[]`; on a 200 response the loop header evaluates
`data.get("stats", [])[0]`, an unguarded index that raises IndexError
when the `stats` array is empty.  A transport failure is not caught. -/
def fetch_season_team_babip (season : Nat) :
    HResp TeamsResponse → Except PyExn (List BabipRow)
  | HResp.transportFail => Except.error PyExn.transport
  | HResp.ok status body =>
    if status ≠ 200 then Except.ok []
    else
      match body.stats with
      | [] => Except.error PyExn.indexError
      | g :: _ =>
        Except.ok <| g.splits.map fun s =>
          { season := season, team_id := s.teamId, team_name := s.teamName
            babip := s.babip }

/- ===== get_team_steals.py : fetch_season_team_stats ===== -/

/-- One team split of the steals response: ids and names may be absent,
counting stats default to 0, the percentage may be absent. -/
structure StealSplit where
  teamId : Option Nat
  teamName : Option String
  stolenBases : Nat
  caughtStealing : Nat
  sbPct : Option String
deriving DecidableEq, Repr

/-- One entry of the top-level `stats` array of the steals response. -/
structure StealGroup where
  splits : List StealSplit
deriving DecidableEq, Repr

/-- Season-aggregate endpoint body for the steals script. -/
structure StealsResponse where
  stats : List StealGroup
deriving DecidableEq, Repr

/-- Row built per split by `fetch_season_team_stats`. -/
structure StealRow where
  season : Nat
  team_id : Option Nat
  team_name : Option String
  stolen_bases : Nat
  caught_stealing : Nat
  sb_success_rate : Option String
deriving DecidableEq, Repr

/-- `fetch_season_team_stats` (lines 23-58): structurally identical to
`fetch_season_team_babip` — a non-200 status returns `[]`, a 200 response
with an empty `stats` array hits the unguarded `data.get("stats", [])[0]`
and raises IndexError, and a transport failure is not caught. -/
def fetch_season_team_stats (season : Nat) :
    HResp StealsResponse → Except PyExn (List StealRow)
  | HResp.transportFail => Except.error PyExn.transport
  | HResp.ok status body =>
    if status ≠ 200 then Except.ok []
    else
      match body.stats with
      | [] => Except.error PyExn.indexError
      | g :: _ =>
        Except.ok <| g.splits.map fun s =>
          { season := season, team_id := s.teamId, team_name := s.teamName
            stolen_bases := s.stolenBases, caught_stealing := s.caughtStealing
            sb_success_rate := s.sbPct }

/- ===== get_pitching_changes_mid_inning.py ===== -/

/-- One play as read by the mid-inning detector: `about.inning`,
`about.isTopInning`, `matchup.pitcher.id` (each possibly absent), and the
descriptions of its `playEvents` (missing descriptions read as ""). -/
structure MPlay where
  inning : Option Nat
  isTop : Option Bool
  pitcher : Option Nat
  events : List String
deriving DecidableEq, Repr

/-- Game-level fields of the feed used when building a change record. -/
structure MCtx where
  gameId : Option Nat
  year : Option Int
  homeTeam : Option String
  awayTeam : Option String
deriving DecidableEq, Repr

/-- The threaded state of the sequential fold:
`prev_inning`, `prev_half`, `prev_pitcher`. -/
structure MState where
  inning : Option Nat
  half : Option Bool
  pitcher : Option Nat
deriving DecidableEq, Repr

/-- Initial fold state (lines 50-52): all three components `None`. -/
def initMState : MState := { inning := none, half := none, pitcher := none }

/-- Record emitted for a detected mid-inning pitching change. -/
structure MEvent where
  game_id : Option Nat
  year : Option Int
  team_name : Option String
  pitcher_id_old : Option Nat
  pitcher_id_new : Option Nat
deriving DecidableEq, Repr

/-- Whether some play event's (lower-cased) description contains
"pitching change" (lines 65-68; the loop breaks at the first such event,
and emission depends only on play-level state, so existence suffices). -/
def hasChange (descs : List String) : Bool :=
  descs.any fun d => strContainsSub (strLower d) "pitching change"

/-- Emission condition of lines 72-73: a previous play exists
(`prev_inning is not None`), inning and half equal the previous play's
(Python `==`, where `None == None` holds), and both pitchers are known
and differ. -/
def changeCond (st : MState) (p : MPlay) : Bool :=
  st.inning.isSome && p.inning == st.inning && p.isTop == st.half &&
    st.pitcher.isSome && p.pitcher.isSome && st.pitcher != p.pitcher

/-- Record produced (or not) for one play given the threaded state
(lines 65-87): requires a "pitching change" event and `changeCond`;
the acting team is home on a top half, away otherwise. -/
def playRecord (ctx : MCtx) (st : MState) (p : MPlay) : Option MEvent :=
  if hasChange p.events && changeCond st p then
    some
      { game_id := ctx.gameId
        year := ctx.year
        team_name := if p.isTop = some true then ctx.homeTeam else ctx.awayTeam
        pitcher_id_old := st.pitcher
        pitcher_id_new := p.pitcher }
  else none

/-- State update after each play (lines 89-93): inning and half always
take the play's values; the pitcher only updates when the play's matchup
pitcher is present. -/
def stepState (st : MState) (p : MPlay) : MState :=
  { inning := p.inning
    half := p.isTop
    pitcher :=
      match p.pitcher with
      | some x => some x
      | none => st.pitcher }

/-- The sequential fold over ordered plays (lines 54-95). -/
def runChanges (ctx : MCtx) (st : MState) : List MPlay → List MEvent
  | [] => []
  | p :: rest => (playRecord ctx st p).toList ++ runChanges ctx (stepState st p) rest

/-- `identify_mid_inning_pitching_changes`, restricted to its pure core:
fold the plays from the initial state. -/
def identify_mid_inning_pitching_changes (ctx : MCtx) (plays : List MPlay) :
    List MEvent :=
  runChanges ctx initMState plays

/-- Threaded state after processing the first `i` plays, starting from `st`. -/
def stateAfterFrom (st : MState) (plays : List MPlay) (i : Nat) : MState :=
  (plays.take i).foldl stepState st

/-- Example game context for the spec §8 scenarios. -/
def exCtx : MCtx :=
  { gameId := some 7, year := some 2021, homeTeam := some "Home"
    awayTeam := some "Away" }

/-- First play of the spec §8 scenario: top of the 5th, pitcher 1. -/
def scnPlay1 : MPlay :=
  { inning := some 5, isTop := some true, pitcher := some 1, events := ["Groundout"] }

/-- Second play, same inning and half, pitcher 2, with a pitching-change
event. -/
def scnPlay2 : MPlay :=
  { inning := some 5, isTop := some true, pitcher := some 2
    events := ["Pitching Change: new pitcher enters"] }

/-- Variant of the second play on the other half of the inning
(half-inning boundary crossed). -/
def scnPlay2Cross : MPlay :=
  { inning := some 5, isTop := some false, pitcher := some 2
    events := ["Pitching Change: new pitcher enters"] }

/-- A play whose matchup pitcher is absent. -/
def scnPlayNoPitcher : MPlay :=
  { inning := some 5, isTop := some true, pitcher := none, events := [] }

/-- The change record emitted on the second play of the spec §8
same-half scenario. -/
def scnEvent : MEvent :=
  { game_id := some 7, year := some 2021, team_name := some "Home"
    pitcher_id_old := some 1, pitcher_id_new := some 2 }

/- ===== get_nl_ops.py : fetch_and_compute_ops (extraction body) ===== -/

/-- Batting line of one player (`stats.batting`, each count defaulting
to 0 when absent). -/
structure Batting where
  atBats : Nat
  hits : Nat
  baseOnBalls : Nat
  hitByPitch : Nat
  sacrificeFlies : Nat
  doubles : Nat
  triples : Nat
  homeRuns : Nat
deriving DecidableEq, Repr

/-- One entry of `boxscore.teams.home.players`: position abbreviation
(a required field) and the batting line. -/
structure PlayerInfo where
  position : String
  batting : Batting
deriving DecidableEq, Repr

/-- The home-side boxscore as read by `fetch_and_compute_ops`: the
`batters` id list and the `players` map (keyed `ID<id>`). -/
structure OpsBox where
  batters : List Nat
  players : List (Nat × PlayerInfo)
deriving DecidableEq, Repr

/-- `players.get(f"ID{pid}")`: look a player up by id. -/
def findPlayer (ps : List (Nat × PlayerInfo)) (pid : Nat) : Option PlayerInfo :=
  (ps.find? fun q => q.1 == pid).map (·.2)

/-- Accumulated batting totals (lines 86-111); kept as integers since
Python subtraction when computing singles may go negative. -/
structure Agg where
  ab : Int
  h : Int
  bb : Int
  hbp : Int
  sf : Int
  tb : Int
deriving DecidableEq, Repr

/-- Zero totals. -/
def aggZero : Agg := { ab := 0, h := 0, bb := 0, hbp := 0, sf := 0, tb := 0 }

/-- Loop body of lines 88-111: skip unknown players and non-matching
positions; otherwise accumulate the counting stats and total bases
(singles + 2·doubles + 3·triples + 4·home-runs with
singles = hits − doubles − triples − home-runs). -/
def accumBatter (players : List (Nat × PlayerInfo)) (pos : String)
    (agg : Agg) (pid : Nat) : Agg :=
  match findPlayer players pid with
  | none => agg
  | some pinfo =>
    if pinfo.position ≠ pos then agg
    else
      let s := pinfo.batting
      let singles : Int := (s.hits : Int) - s.doubles - s.triples - s.homeRuns
      { ab := agg.ab + s.atBats
        h := agg.h + s.hits
        bb := agg.bb + s.baseOnBalls
        hbp := agg.hbp + s.hitByPitch
        sf := agg.sf + s.sacrificeFlies
        tb := agg.tb + (singles + 2 * s.doubles + 3 * s.triples + 4 * s.homeRuns) }

/-- Totals over the home batters list. -/
def aggregateBox (box : OpsBox) (pos : String) : Agg :=
  box.batters.foldl (accumBatter box.players pos) aggZero

/-- Division that raises (models Python `/`, whose zero-divisor case is a
ZeroDivisionError). -/
def checkedDiv (a b : Int) : Except PyExn ℚ :=
  if b = 0 then Except.error PyExn.keyError else Except.ok ((a : ℚ) / (b : ℚ))

/-- IEEE-NaN-style value: `none` is NaN (Python `float("nan")`). -/
def nanAdd : Option ℚ → Option ℚ → Option ℚ
  | some x, some y => some (x + y)
  | _, _ => none

/-- The `obp_denom` of line 114: at-bats + walks + hit-by-pitch +
sacrifice flies. -/
def obpDenom (agg : Agg) : Int :=
  agg.ab + agg.bb + agg.hbp + agg.sf

/-- OBP of line 115: guarded division, NaN when the denominator is not
positive. -/
def computeObp (agg : Agg) : Except PyExn (Option ℚ) :=
  if obpDenom agg > 0 then (checkedDiv (agg.h + agg.bb + agg.hbp) (obpDenom agg)).map some
  else Except.ok none

/-- SLG of line 116: guarded division, NaN when at-bats is not positive. -/
def computeSlg (agg : Agg) : Except PyExn (Option ℚ) :=
  if agg.ab > 0 then (checkedDiv agg.tb agg.ab).map some
  else Except.ok none

/-- Result record of `fetch_and_compute_ops` (rate fields kept unrounded;
the script rounds them to 3 decimals only for CSV output). -/
structure OpsOut where
  ab : Int
  obp : Option ℚ
  slg : Option ℚ
  ops : Option ℚ
deriving DecidableEq, Repr

/-- Extraction body of `fetch_and_compute_ops` (lines 79-128): aggregate
the position-matching home batters, then compute OBP, SLG and
OPS = OBP + SLG; a raised division error (were one reachable) escapes in
evaluation order. -/
def fetch_and_compute_ops (box : OpsBox) (pos : String) :
    Except PyExn OpsOut :=
  match computeObp (aggregateBox box pos), computeSlg (aggregateBox box pos) with
  | Except.error e, _ => Except.error e
  | _, Except.error e => Except.error e
  | Except.ok obp, Except.ok slg =>
    Except.ok { ab := (aggregateBox box pos).ab, obp := obp, slg := slg
                ops := nanAdd obp slg }

/-- Response-level behavior of `fetch_and_compute_ops` (lines 62-132):
the request (lines 72-77) is not wrapped in try/except, so a transport
failure escapes; a non-200 status returns None for that game; on a 200
response the extraction runs inside try/except (lines 79-132), so any
error it raises is downgraded to None for that game. -/
def fetch_and_compute_ops_resp (pos : String) :
    HResp OpsBox → Except PyExn (Option OpsOut)
  | HResp.transportFail => Except.error PyExn.transport
  | HResp.ok status body =>
    if status ≠ 200 then Except.ok none
    else
      match fetch_and_compute_ops body pos with
      | Except.ok out => Except.ok (some out)
      | Except.error _ => Except.ok none

/-- A boxscore with no batters (so every aggregate, at-bats included,
is zero). -/
def emptyBox : OpsBox := { batters := [], players := [] }

/- ===== pitcher_appearances.py : fetch_season_games ===== -/

/-- One schedule entry: its `gamePk` (absent, or present; a present 0 is
falsy in Python). -/
structure SchedGame where
  gamePk : Option Nat
deriving DecidableEq, Repr

/-- One date of the schedule response. -/
structure SchedDate where
  games : List SchedGame
deriving DecidableEq, Repr

/-- Date-nested schedule listing. -/
structure Schedule where
  dates : List SchedDate
deriving DecidableEq, Repr

/-- Extraction body of `fetch_season_games` (lines 96-103): flatten the
date-nested listing and keep every truthy `gamePk`, in order and with
multiplicity (no deduplication). -/
def fetch_season_games (sched : Schedule) : List Nat :=
  (sched.dates.flatMap fun d => d.games).filterMap fun g =>
    match g.gamePk with
    | some pk => if pk ≠ 0 then some pk else none
    | none => none

/-- A schedule mentioning the same game id under two different dates. -/
def dupSched : Schedule :=
  { dates := [⟨[⟨some 5⟩]⟩, ⟨[⟨some 5⟩]⟩] }

/- ===== fetch_process_pitcher_counts.py : aggregation (lines 137-147) ===== -/

/-- One flat pitcher-appearance record (year already derived from the
game datetime). -/
structure PRec where
  team_name : String
  year : Int
  game_id : Nat
  pitcher_id : Nat
deriving DecidableEq, Repr

/-- Grouping key of the first groupby: (team, year, game). -/
def gameKey (r : PRec) : String × Int × Nat := (r.team_name, r.year, r.game_id)

/-- Grouping key of the second groupby: (team, year). -/
def tyKey (r : PRec) : String × Int := (r.team_name, r.year)

/-- `nunique` of pitcher ids within one (team, year, game) group. -/
def pitcherCount (recs : List PRec) (k : String × Int × Nat) : Nat :=
  (((recs.filter fun r => gameKey r == k).map fun r => r.pitcher_id).dedup).length

/-- The distinct (team, year, game) keys present in the records. -/
def gameKeysOf (recs : List PRec) : List (String × Int × Nat) :=
  (recs.map gameKey).dedup

/-- Mean of the per-game unique-pitcher counts over the games of one
(team, year) group. -/
def avgPitcherCount (recs : List PRec) (t : String × Int) : ℚ :=
  (((gameKeysOf recs).filter fun k => k.1 == t.1 && k.2.1 == t.2).map
    fun k => (pitcherCount recs k : ℚ)).sum /
    ((((gameKeysOf recs).filter fun k => k.1 == t.1 && k.2.1 == t.2).length : Nat) : ℚ)

/-- The aggregation of `main` (lines 137-147) as a set of output rows:
one (team, year, mean unique-pitcher count) row per distinct
(team, year). -/
def aggregateRows (recs : List PRec) : Finset (String × Int × ℚ) :=
  ((recs.map tyKey).dedup.toFinset).image fun t => (t.1, t.2, avgPitcherCount recs t)

/-- Two example pitcher-appearance records. -/
def pr1 : PRec := { team_name := "A", year := 2020, game_id := 1, pitcher_id := 10 }

/-- Second example record, same game, different pitcher. -/
def pr2 : PRec := { team_name := "A", year := 2020, game_id := 1, pitcher_id := 11 }

/- ===================== Theorems ===================== -/

/- ----- ConcurrencyGate ----- -/

theorem countPhase_set (l : List Phase) (i : Nat) (a b ph : Phase)
    (h : l[i]? = some a) :
    countPhase ph (l.set i b) + (if a = ph then 1 else 0) =
      countPhase ph l + (if b = ph then 1 else 0) := by
  induction l generalizing i with
  | nil => simp at h
  | cons p ps ih =>
    cases i with
    | zero =>
      simp at h
      subst h
      simp [countPhase, List.set_cons_zero]
      omega
    | succ j =>
      simp at h
      have hj := ih j h
      simp [countPhase, List.set_cons_succ]
      omega

theorem countPhase_replicate_pending (n : Nat) :
    countPhase Phase.inflight (List.replicate n Phase.pending) = 0 := by
  induction n with
  | zero => rfl
  | succ k ih => simp [List.replicate_succ, countPhase, ih]

theorem gate_inv (cap n : Nat) (s : GateState) (hr : Reachable cap n s) :
    countPhase Phase.inflight s.tasks + s.permits = cap := by
  induction hr with
  | init => simp [initState, countPhase_replicate_pending]
  | step _ hs ih =>
    cases hs with
    | acquire i h hp =>
      have hc := countPhase_set _ i Phase.pending Phase.inflight Phase.inflight h
      simp at hc
      dsimp only
      omega
    | release i h =>
      have hc := countPhase_set _ i Phase.inflight Phase.done Phase.inflight h
      simp at hc
      dsimp only
      omega

/-- Claim C2: under any interleaving of acquires and releases, the number
of simultaneously in-flight requests never exceeds the configured gate
capacity of 10: every fetch consumes a permit before its request and the
only transition out of the in-flight phase restores the permit, so no
permit is ever leaked. -/
theorem gate_capacity_bound (n : Nat) (s : GateState)
    (hr : Reachable gateCapacity n s) :
    countPhase Phase.inflight s.tasks ≤ 10 := by
  have hinv := gate_inv gateCapacity n s hr
  have hcap : gateCapacity = 10 := rfl
  omega

/-- Concrete instance of `gate_capacity_bound` at a reachable state. -/
theorem gate_capacity_bound_witness :
    Reachable gateCapacity 5 (initState gateCapacity 5) ∧
      countPhase Phase.inflight (initState gateCapacity 5).tasks ≤ 10 :=
  ⟨Reachable.init, gate_capacity_bound 5 (initState gateCapacity 5) Reachable.init⟩

/- ----- Extra-innings extractor ----- -/

theorem battersUntilFirstRun_go (b : Nat) (plays : List XPlay) :
    battersUntilFirstRun b plays =
      ((plays.filter fun p => 9 < p.inning).findIdx? fun p => p.rbi ≠ 0).map
        (fun i => b + i + 1) := by
  induction plays generalizing b with
  | nil => simp [battersUntilFirstRun]
  | cons p rest ih =>
    by_cases h9 : p.inning ≤ 9
    · have h9' : ¬ (9 < p.inning) := by omega
      simp [battersUntilFirstRun, h9, List.filter_cons, h9', ih]
    · have h9' : 9 < p.inning := by omega
      by_cases hr : p.rbi = 0
      · rw [battersUntilFirstRun]
        rw [if_neg h9, if_neg (by simp [hr])]
        rw [List.filter_cons, if_pos (by simpa using h9')]
        rw [List.findIdx?_cons, if_neg (by simp [hr]), List.findIdx?_succ]
        rw [ih]
        cases h' : (rest.filter fun p => 9 < p.inning).findIdx? fun p => p.rbi ≠ 0 <;>
          simp [h']
        omega
      · rw [battersUntilFirstRun]
        rw [if_neg h9, if_pos (by simp [hr])]
        rw [List.filter_cons, if_pos (by simpa using h9')]
        rw [List.findIdx?_cons, if_pos (by simp [hr])]
        simp

theorem specBattersFaced_eq (plays : List XPlay) :
    battersUntilFirstRun 0 plays = specBattersFaced plays := by
  rw [battersUntilFirstRun_go]
  unfold specBattersFaced
  cases h : (plays.filter fun p => 9 < p.inning).findIdx? fun p => p.rbi ≠ 0 <;>
    simp [h]

/-- Claim C3: a linescore with 9 or fewer innings yields no record; with
more than 9 innings the extractor emits one record whose final inning is
the last inning's number, whose total extra runs are the sum of home plus
away runs over innings numbered above 9, and whose batters-faced count is
the number of extra-inning plays up to and including the first with a
nonzero run-batted-in value; on the 11-inning example with innings 10 and
11 contributing 2 and 1 runs it yields final_inning 11 and
total_extra_runs 3. -/
theorem extra_innings_extractor_spec :
    (∀ doc : XDoc, doc.innings.length ≤ 9 → fetch_game_details doc = none) ∧
    (∀ doc : XDoc, 9 < doc.innings.length →
      ∃ r, fetch_game_details doc = some r ∧
        r.total_extra_runs = specExtraRuns doc.innings ∧
        r.batters_until_first_run = specBattersFaced doc.plays ∧
        ∀ inn n, doc.innings.getLast? = some inn → inn.num = some n →
          r.final_inning = n) ∧
    (fetch_game_details exDoc11).map XRec.final_inning = some 11 ∧
    (fetch_game_details exDoc11).map XRec.total_extra_runs = some 3 := by
  refine ⟨?_, ?_, by decide, by decide⟩
  · intro doc h
    simp [fetch_game_details, h]
  · intro doc h
    have h' : ¬ doc.innings.length ≤ 9 := by omega
    rw [fetch_game_details, if_neg h']
    refine ⟨_, rfl, rfl, specBattersFaced_eq doc.plays, ?_⟩
    intro inn n hlast hnum
    simp [hlast, hnum]

/-- Concrete instances of `extra_innings_extractor_spec`. -/
theorem extra_innings_extractor_spec_witness :
    fetch_game_details exDoc9 = none ∧
      ∃ r, fetch_game_details exDoc11 = some r ∧
        r.total_extra_runs = specExtraRuns exDoc11.innings ∧
        r.batters_until_first_run = specBattersFaced exDoc11.plays ∧
        ∀ inn n, exDoc11.innings.getLast? = some inn → inn.num = some n →
          r.final_inning = n :=
  ⟨extra_innings_extractor_spec.1 exDoc9 (by decide),
    extra_innings_extractor_spec.2.1 exDoc11 (by decide)⟩

/-- Claim C4: for every record the extractor emits, the winner is the home
team exactly when final home runs strictly exceed final away runs and
otherwise the away team; in particular a tie declares the away team the
winner and the home team the loser. -/
theorem extra_innings_winner_rule (doc : XDoc) (r : XRec)
    (h : fetch_game_details doc = some r) :
    (r.team_winner =
      if doc.awayRunsFinal < doc.homeRunsFinal then doc.homeName else doc.awayName) ∧
    (r.team_loser =
      if doc.awayRunsFinal < doc.homeRunsFinal then doc.awayName else doc.homeName) ∧
    (doc.homeRunsFinal = doc.awayRunsFinal →
      r.team_winner = doc.awayName ∧ r.team_loser = doc.homeName) := by
  by_cases h9 : doc.innings.length ≤ 9
  · simp [fetch_game_details, h9] at h
  · rw [fetch_game_details, if_neg h9] at h
    injection h with h
    subst h
    by_cases hw : doc.homeRunsFinal > doc.awayRunsFinal
    · have hne : ¬ doc.homeRunsFinal = doc.awayRunsFinal := by omega
      simp [hw, hne]
    · have hw' : ¬ doc.awayRunsFinal < doc.homeRunsFinal := hw
      simp [hw, hw']

/-- Concrete instance of `extra_innings_winner_rule` at a tied document. -/
theorem extra_innings_winner_rule_witness :
    fetch_game_details exDocTie = some exRecTie ∧
      exRecTie.team_winner = exDocTie.awayName ∧
      exRecTie.team_loser = exDocTie.homeName := by
  have h : fetch_game_details exDocTie = some exRecTie := by decide
  exact ⟨h, (extra_innings_winner_rule exDocTie exRecTie h).2.2 rfl⟩

/- ----- On-base-plus-slugging extractor ----- -/

theorem nanAdd_eq_none_iff (a b : Option ℚ) :
    nanAdd a b = none ↔ a = none ∨ b = none := by
  cases a <;> cases b <;> simp [nanAdd]

theorem computeObp_ok (agg : Agg) :
    ∃ o, computeObp agg = Except.ok o ∧ (obpDenom agg = 0 → o = none) := by
  by_cases hd : obpDenom agg > 0
  · have hval : computeObp agg = Except.ok (some
        (((agg.h + agg.bb + agg.hbp : Int) : ℚ) / ((obpDenom agg : Int) : ℚ))) := by
      unfold computeObp checkedDiv
      rw [if_pos hd, if_neg (by omega)]
      rfl
    exact ⟨_, hval, fun h0 => absurd h0 (by omega)⟩
  · exact ⟨none, by unfold computeObp; rw [if_neg hd], fun _ => rfl⟩

theorem computeSlg_ok (agg : Agg) :
    ∃ o, computeSlg agg = Except.ok o ∧ (agg.ab = 0 → o = none) := by
  by_cases hd : agg.ab > 0
  · have hval : computeSlg agg = Except.ok (some
        ((agg.tb : ℚ) / ((agg.ab : Int) : ℚ))) := by
      unfold computeSlg checkedDiv
      rw [if_pos hd, if_neg (by omega)]
      rfl
    exact ⟨_, hval, fun h0 => absurd h0 (by omega)⟩
  · exact ⟨none, by unfold computeSlg; rw [if_neg hd], fun _ => rfl⟩

/-- Claim C7: the on-base-plus-slugging computation never reaches a
division error: a zero on-base denominator yields an undefined (NaN)
on-base value, zero at-bats yields an undefined slugging value, and
on-base-plus-slugging is the NaN-propagating sum of the two. -/
theorem ops_no_division_error (box : OpsBox) (pos : String) :
    ∃ out, fetch_and_compute_ops box pos = Except.ok out ∧
      (obpDenom (aggregateBox box pos) = 0 → out.obp = none) ∧
      ((aggregateBox box pos).ab = 0 → out.slg = none) ∧
      out.ops = nanAdd out.obp out.slg ∧
      (out.ops = none ↔ out.obp = none ∨ out.slg = none) := by
  obtain ⟨o, ho, ho0⟩ := computeObp_ok (aggregateBox box pos)
  obtain ⟨sl, hs, hs0⟩ := computeSlg_ok (aggregateBox box pos)
  refine ⟨{ ab := (aggregateBox box pos).ab, obp := o, slg := sl, ops := nanAdd o sl },
    ?_, ho0, hs0, rfl, nanAdd_eq_none_iff o sl⟩
  unfold fetch_and_compute_ops
  rw [ho, hs]

/-- Concrete instance of `ops_no_division_error` on an empty boxscore. -/
theorem ops_no_division_error_witness :
    ∃ out, fetch_and_compute_ops emptyBox "P" = Except.ok out ∧
      out.obp = none ∧ out.slg = none ∧ out.ops = none := by
  obtain ⟨out, hout, h1, h2, h3, _⟩ := ops_no_division_error emptyBox "P"
  have e1 : out.obp = none := h1 (by decide)
  have e2 : out.slg = none := h2 (by decide)
  refine ⟨out, hout, e1, e2, ?_⟩
  rw [h3, e1, e2]
  rfl

/- ----- Season-level team stats (BABIP and steals) ----- -/

/-- Claim C10: on the season-level team-stats scripts, a 200 response
whose top-level stats array is empty raises IndexError out of the
per-season call, while the empty-result downgrade applies only to
non-success statuses. -/
theorem team_stats_empty_stats_raises (season : Nat) :
    (∀ body : TeamsResponse, body.stats = [] →
      fetch_season_team_babip season (HResp.ok 200 body) =
        Except.error PyExn.indexError) ∧
    (∀ (st : Nat) (body : TeamsResponse), st ≠ 200 →
      fetch_season_team_babip season (HResp.ok st body) = Except.ok []) ∧
    (∀ body : StealsResponse, body.stats = [] →
      fetch_season_team_stats season (HResp.ok 200 body) =
        Except.error PyExn.indexError) ∧
    (∀ (st : Nat) (body : StealsResponse), st ≠ 200 →
      fetch_season_team_stats season (HResp.ok st body) = Except.ok []) := by
  refine ⟨fun body hb => ?_, fun st body hst => ?_, fun body hb => ?_,
    fun st body hst => ?_⟩
  · simp [fetch_season_team_babip, hb]
  · simp [fetch_season_team_babip, hst]
  · simp [fetch_season_team_stats, hb]
  · simp [fetch_season_team_stats, hst]

/-- Concrete instances of `team_stats_empty_stats_raises`. -/
theorem team_stats_empty_stats_raises_witness :
    fetch_season_team_babip 2014 (HResp.ok 200 ⟨[]⟩) =
        Except.error PyExn.indexError ∧
      fetch_season_team_babip 2014 (HResp.ok 404 ⟨[]⟩) = Except.ok [] ∧
      fetch_season_team_stats 2014 (HResp.ok 200 ⟨[]⟩) =
        Except.error PyExn.indexError ∧
      fetch_season_team_stats 2014 (HResp.ok 404 ⟨[]⟩) = Except.ok [] :=
  ⟨(team_stats_empty_stats_raises 2014).1 ⟨[]⟩ rfl,
    (team_stats_empty_stats_raises 2014).2.1 404 ⟨[]⟩ (by decide),
    (team_stats_empty_stats_raises 2014).2.2.1 ⟨[]⟩ rfl,
    (team_stats_empty_stats_raises 2014).2.2.2 404 ⟨[]⟩ (by decide)⟩

/- ----- Error downgrading at unit boundaries (C1) ----- -/

/-- Claim C1 counterexample: in `get_play_duration.py` a transport
failure, and a 200 response missing the `liveData`/`plays` chain, escape
`fetch_play_durations` as exceptions instead of being downgraded to an
empty result for that game. -/
theorem error_downgrade_counterexample :
    fetch_play_durations (fun _ => 0) 2014 1 HResp.transportFail =
        Except.error PyExn.transport ∧
      fetch_play_durations (fun _ => 0) 2014 1 (HResp.ok 200 ⟨none⟩) =
        Except.error PyExn.keyError ∧
      (fetch_play_durations (fun _ => 0) 2014 1 HResp.transportFail).isOk = false ∧
      (fetch_play_durations (fun _ => 0) 2014 1 (HResp.ok 200 ⟨none⟩)).isOk = false :=
  ⟨rfl, rfl, rfl, rfl⟩

/-- Claim C1 (amended): in the cited fetchers a non-success status is
downgraded at its point of origin to skipping the unit
(`fetch_play_durations` returns an empty list; `fetch_and_compute_ops`
returns None), and `fetch_and_compute_ops` also downgrades any extraction
error on a 200 response to None; the extra-innings fetcher, whose request
is wrapped in try/except, downgrades transport failures and non-success
statuses to skipping the game.  But a transport failure propagates past
the unit boundary in `fetch_play_durations`, `fetch_and_compute_ops`,
`fetch_season_team_babip` and `fetch_season_team_stats`, whose requests
are not wrapped in try/except, and a missing `liveData.plays.allPlays`
chain propagates out of `fetch_play_durations` as an extraction error. -/
theorem error_downgrade_amended :
    (∀ (toTime : String → Int) (season pk st : Nat) (body : DDoc), st ≠ 200 →
      fetch_play_durations toTime season pk (HResp.ok st body) = Except.ok []) ∧
    (∀ (toTime : String → Int) (season pk : Nat),
      fetch_play_durations toTime season pk HResp.transportFail =
        Except.error PyExn.transport) ∧
    (∀ (toTime : String → Int) (season pk : Nat) (body : DDoc),
      body.livePlays = none →
      fetch_play_durations toTime season pk (HResp.ok 200 body) =
        Except.error PyExn.keyError) ∧
    (∀ (pos : String) (st : Nat) (body : OpsBox), st ≠ 200 →
      fetch_and_compute_ops_resp pos (HResp.ok st body) = Except.ok none) ∧
    (∀ pos : String,
      fetch_and_compute_ops_resp pos HResp.transportFail =
        Except.error PyExn.transport) ∧
    (∀ (pos : String) (body : OpsBox),
      ∃ v, fetch_and_compute_ops_resp pos (HResp.ok 200 body) = Except.ok v) ∧
    (∀ f : XDoc → Option XRec,
      fetch_game_details_resp f HResp.transportFail = none) ∧
    (∀ (f : XDoc → Option XRec) (st : Nat) (body : XDoc), st ≠ 200 →
      fetch_game_details_resp f (HResp.ok st body) = none) ∧
    (∀ season : Nat,
      fetch_season_team_babip season HResp.transportFail =
        Except.error PyExn.transport) ∧
    (∀ season : Nat,
      fetch_season_team_stats season HResp.transportFail =
        Except.error PyExn.transport) := by
  refine ⟨fun toTime season pk st body hst => ?_,
    fun toTime season pk => rfl,
    fun toTime season pk body hb => ?_,
    fun pos st body hst => ?_,
    fun pos => rfl,
    fun pos body => ?_,
    fun f => rfl,
    fun f st body hst => ?_,
    fun season => rfl,
    fun season => rfl⟩
  · simp [fetch_play_durations, hst]
  · simp [fetch_play_durations, hb]
  · simp [fetch_and_compute_ops_resp, hst]
  · cases h : fetch_and_compute_ops body pos with
    | ok out => exact ⟨some out, by simp [fetch_and_compute_ops_resp, h]⟩
    | error e => exact ⟨none, by simp [fetch_and_compute_ops_resp, h]⟩
  · simp [fetch_game_details_resp, hst]

/-- Concrete instances of `error_downgrade_amended`, discharging each
hypothesis at a concrete input. -/
theorem error_downgrade_amended_witness :
    fetch_play_durations (fun _ => 0) 2014 1 (HResp.ok 404 ⟨none⟩) =
        Except.ok [] ∧
      fetch_play_durations (fun _ => 0) 2014 1 (HResp.ok 200 ⟨none⟩) =
        Except.error PyExn.keyError ∧
      fetch_and_compute_ops_resp "P" (HResp.ok 500 emptyBox) =
        Except.ok none ∧
      (∃ v, fetch_and_compute_ops_resp "P" (HResp.ok 200 emptyBox) =
        Except.ok v) ∧
      fetch_game_details_resp fetch_game_details (HResp.ok 500 exDoc11) =
        none :=
  ⟨error_downgrade_amended.1 (fun _ => 0) 2014 1 404 ⟨none⟩ (by decide),
    error_downgrade_amended.2.2.1 (fun _ => 0) 2014 1 ⟨none⟩ rfl,
    error_downgrade_amended.2.2.2.1 "P" 500 emptyBox (by decide),
    error_downgrade_amended.2.2.2.2.2.1 "P" emptyBox,
    error_downgrade_amended.2.2.2.2.2.2.2.1 fetch_game_details 500 exDoc11
      (by decide)⟩

/- ----- Schedule flattening (C9) ----- -/

/-- Claim C9 counterexample: the schedule extractor does not deduplicate —
a game id mentioned under two dates is kept twice, so `main` issues one
detail fetch per mention, i.e. two fetches for one (season, game_id)
pair. -/
theorem schedule_dedup_counterexample :
    fetch_season_games dupSched = [5, 5] ∧
      (fetch_season_games dupSched).count 5 = 2 := by
  refine ⟨rfl, ?_⟩
  decide

theorem count_filterMap_gamePk (pk : Nat) (hpk : pk ≠ 0) (l : List SchedGame) :
    (l.filterMap fun g =>
      match g.gamePk with
      | some pk => if pk ≠ 0 then some pk else none
      | none => none).count pk = (l.map fun g => g.gamePk).count (some pk) := by
  induction l with
  | nil => rfl
  | cons g gs ih =>
    simp only [ne_eq, ite_not] at ih
    rw [List.filterMap_cons, List.map_cons]
    cases hg : g.gamePk with
    | none =>
      simp [hg, List.count_cons, ih]
    | some q =>
      by_cases hq : q = 0
      · subst hq
        simp [hg, List.count_cons, Ne.symm hpk, ih]
      · simp [hg, hq, List.count_cons, ih]

/-- Claim C9 (amended): resolving a season's schedule flattens the
date-nested listing preserving order and multiplicity — the number of
detail fetches issued for a game id equals its number of truthy mentions
in the listing, with no deduplication. -/
theorem schedule_multiplicity (sched : Schedule) (pk : Nat) (hpk : pk ≠ 0) :
    (fetch_season_games sched).count pk =
      ((sched.dates.flatMap fun d => d.games).map (fun g => g.gamePk)).count
        (some pk) := by
  unfold fetch_season_games
  exact count_filterMap_gamePk pk hpk _

/-- Concrete instance of `schedule_multiplicity` on the duplicated
schedule. -/
theorem schedule_multiplicity_witness :
    (fetch_season_games dupSched).count 5 =
      ((dupSched.dates.flatMap fun d => d.games).map (fun g => g.gamePk)).count
        (some 5) :=
  schedule_multiplicity dupSched 5 (by decide)

/- ----- Mid-inning pitching-change detector ----- -/

theorem stepState_pitcher (st : MState) (p : MPlay) :
    (stepState st p).pitcher =
      match p.pitcher with
      | some x => some x
      | none => st.pitcher := rfl

theorem stateAfterFrom_cons (st : MState) (p : MPlay) (rest : List MPlay) (j : Nat) :
    stateAfterFrom st (p :: rest) (j + 1) = stateAfterFrom (stepState st p) rest j := by
  simp [stateAfterFrom, List.take_succ_cons]

theorem stateAfterFrom_succ (st : MState) (plays : List MPlay) (i : Nat)
    (h : i < plays.length) :
    stateAfterFrom st plays (i + 1) =
      stepState (stateAfterFrom st plays i) (plays.get ⟨i, h⟩) := by
  induction plays generalizing st i with
  | nil => exact absurd h (Nat.not_lt_zero i)
  | cons p rest ih =>
    cases i with
    | zero => simp [stateAfterFrom]
    | succ j =>
      rw [stateAfterFrom_cons, stateAfterFrom_cons]
      have hj : j < rest.length := Nat.lt_of_succ_lt_succ h
      rw [ih (stepState st p) j hj]
      rfl

theorem mem_runChanges (ctx : MCtx) (st : MState) (plays : List MPlay) (e : MEvent) :
    e ∈ runChanges ctx st plays ↔
      ∃ i, ∃ h : i < plays.length,
        playRecord ctx (stateAfterFrom st plays i) (plays.get ⟨i, h⟩) = some e := by
  induction plays generalizing st with
  | nil => simp [runChanges]
  | cons p rest ih =>
    rw [runChanges, List.mem_append]
    constructor
    · rintro (he | he)
      · refine ⟨0, Nat.succ_pos _, ?_⟩
        cases hpr : playRecord ctx st p with
        | none => rw [hpr] at he; simp at he
        | some e' =>
          rw [hpr] at he
          simp at he
          subst he
          exact hpr
      · obtain ⟨j, hj, hpr⟩ := (ih (stepState st p)).mp he
        refine ⟨j + 1, Nat.succ_lt_succ hj, ?_⟩
        rw [stateAfterFrom_cons]
        exact hpr
    · rintro ⟨i, hi, hpr⟩
      cases i with
      | zero =>
        left
        have hpr' : playRecord ctx st p = some e := hpr
        simp [hpr']
      | succ j =>
        right
        apply (ih (stepState st p)).mpr
        refine ⟨j, Nat.lt_of_succ_lt_succ hi, ?_⟩
        rw [stateAfterFrom_cons] at hpr
        exact hpr

/-- Claim C5: a change record is emitted for a play only if some play
event's description contains "pitching change", the play's inning and
half-inning equal those of the immediately preceding play, and the play's
matchup pitcher is present and differs from the preceding play's pitcher;
the same-half two-play scenario yields exactly one record and the
boundary-crossing variant yields zero. -/
theorem mid_inning_change_conditions :
    (∀ (ctx : MCtx) (plays : List MPlay) (e : MEvent),
      e ∈ identify_mid_inning_pitching_changes ctx plays →
      ∃ i, ∃ h : i + 1 < plays.length,
        hasChange (plays.get ⟨i + 1, h⟩).events = true ∧
        (plays.get ⟨i + 1, h⟩).inning = (plays.get ⟨i, by omega⟩).inning ∧
        (plays.get ⟨i + 1, h⟩).isTop = (plays.get ⟨i, by omega⟩).isTop ∧
        (plays.get ⟨i + 1, h⟩).pitcher.isSome = true ∧
        ((plays.get ⟨i + 1, h⟩).pitcher == (plays.get ⟨i, by omega⟩).pitcher)
          = false) ∧
    (identify_mid_inning_pitching_changes exCtx [scnPlay1, scnPlay2]).length = 1 ∧
    (identify_mid_inning_pitching_changes exCtx [scnPlay1, scnPlay2Cross]).length
      = 0 := by
  refine ⟨?_, by decide, by decide⟩
  intro ctx plays e he
  obtain ⟨i, hi, hpr⟩ := (mem_runChanges ctx initMState plays e).mp he
  cases hc : hasChange (plays.get ⟨i, hi⟩).events &&
      changeCond (stateAfterFrom initMState plays i) (plays.get ⟨i, hi⟩) with
  | false =>
    unfold playRecord at hpr
    rw [hc] at hpr
    simp at hpr
  | true =>
    rw [Bool.and_eq_true] at hc
    obtain ⟨hch, hcc⟩ := hc
    unfold changeCond at hcc
    simp only [Bool.and_eq_true] at hcc
    obtain ⟨⟨⟨⟨⟨hinnS, hinnEq⟩, hhalfEq⟩, hpS⟩, hcurS⟩, hne⟩ := hcc
    cases i with
    | zero =>
      simp [stateAfterFrom, initMState] at hinnS
    | succ j =>
      have hj : j < plays.length := by omega
      have hst : stateAfterFrom initMState plays (j + 1) =
          stepState (stateAfterFrom initMState plays j) (plays.get ⟨j, hj⟩) :=
        stateAfterFrom_succ _ _ j hj
      refine ⟨j, hi, hch, ?_, ?_, hcurS, ?_⟩
      · show (plays.get ⟨j + 1, hi⟩).inning = (plays.get ⟨j, hj⟩).inning
        have h1 : (plays.get ⟨j + 1, hi⟩).inning =
            (stateAfterFrom initMState plays (j + 1)).inning := by
          simpa using hinnEq
        rw [h1, hst]
        rfl
      · show (plays.get ⟨j + 1, hi⟩).isTop = (plays.get ⟨j, hj⟩).isTop
        have h1 : (plays.get ⟨j + 1, hi⟩).isTop =
            (stateAfterFrom initMState plays (j + 1)).half := by
          simpa using hhalfEq
        rw [h1, hst]
        rfl
      · show ((plays.get ⟨j + 1, hi⟩).pitcher == (plays.get ⟨j, hj⟩).pitcher)
          = false
        rw [hst] at hne
        cases hq : (plays.get ⟨j, hj⟩).pitcher with
        | some q =>
          have hstp : (stepState (stateAfterFrom initMState plays j)
              (plays.get ⟨j, hj⟩)).pitcher = some q := by
            rw [stepState_pitcher, hq]
          rw [hstp] at hne
          have hne' : (plays.get ⟨j + 1, hi⟩).pitcher ≠ some q := by
            have := bne_iff_ne.mp hne
            exact fun hcontra => this (hcontra ▸ rfl)
          exact beq_eq_false_iff_ne.mpr hne'
        | none =>
          obtain ⟨x, hx⟩ := Option.isSome_iff_exists.mp hcurS
          rw [hx]
          rfl

/-- Concrete instance of `mid_inning_change_conditions` on the same-half
scenario. -/
theorem mid_inning_change_conditions_witness :
    ∃ i, ∃ h : i + 1 < ([scnPlay1, scnPlay2] : List MPlay).length,
      hasChange (([scnPlay1, scnPlay2] : List MPlay).get ⟨i + 1, h⟩).events
        = true ∧
      (([scnPlay1, scnPlay2] : List MPlay).get ⟨i + 1, h⟩).inning =
        (([scnPlay1, scnPlay2] : List MPlay).get ⟨i, by omega⟩).inning ∧
      (([scnPlay1, scnPlay2] : List MPlay).get ⟨i + 1, h⟩).isTop =
        (([scnPlay1, scnPlay2] : List MPlay).get ⟨i, by omega⟩).isTop ∧
      (([scnPlay1, scnPlay2] : List MPlay).get ⟨i + 1, h⟩).pitcher.isSome
        = true ∧
      ((([scnPlay1, scnPlay2] : List MPlay).get ⟨i + 1, h⟩).pitcher ==
        (([scnPlay1, scnPlay2] : List MPlay).get ⟨i, by omega⟩).pitcher)
        = false :=
  mid_inning_change_conditions.1 exCtx [scnPlay1, scnPlay2] scnEvent (by decide)

/-- Claim C6 counterexample: after processing a play whose matchup
pitcher is absent, the threaded state keeps the preceding play's pitcher
(some 1) rather than equalling the play's matchup pitcher (none). -/
theorem fold_state_counterexample :
    (stateAfterFrom initMState [scnPlay1, scnPlayNoPitcher] 2).pitcher = some 1 ∧
      scnPlayNoPitcher.pitcher = none ∧
      ((stateAfterFrom initMState [scnPlay1, scnPlayNoPitcher] 2).pitcher ==
        scnPlayNoPitcher.pitcher) = false := by
  refine ⟨by decide, by decide, by decide⟩

/-- Claim C6 (amended): after each play the threaded inning and half
equal that play's values; the pitcher component equals the play's matchup
pitcher when it is present, and otherwise retains its previous value. -/
theorem fold_state_tracking (plays : List MPlay) (i : Nat) (h : i < plays.length) :
    (stateAfterFrom initMState plays (i + 1)).inning = (plays.get ⟨i, h⟩).inning ∧
    (stateAfterFrom initMState plays (i + 1)).half = (plays.get ⟨i, h⟩).isTop ∧
    (∀ q, (plays.get ⟨i, h⟩).pitcher = some q →
      (stateAfterFrom initMState plays (i + 1)).pitcher = some q) ∧
    ((plays.get ⟨i, h⟩).pitcher = none →
      (stateAfterFrom initMState plays (i + 1)).pitcher =
        (stateAfterFrom initMState plays i).pitcher) := by
  rw [stateAfterFrom_succ initMState plays i h]
  refine ⟨rfl, rfl, ?_, ?_⟩
  · intro q hq
    rw [stepState_pitcher, hq]
  · intro hq
    rw [stepState_pitcher, hq]

/-- Concrete instance of `fold_state_tracking`. -/
theorem fold_state_tracking_witness :
    (stateAfterFrom initMState [scnPlay1] 1).inning = scnPlay1.inning ∧
      (stateAfterFrom initMState [scnPlay1] 1).half = scnPlay1.isTop ∧
      (stateAfterFrom initMState [scnPlay1] 1).pitcher = some 1 := by
  obtain ⟨h1, h2, h3, _⟩ := fold_state_tracking [scnPlay1] 0 (by decide)
  exact ⟨h1, h2, h3 1 rfl⟩

/- ----- Pitcher-count aggregation ----- -/

/-- Claim C8: the two-stage aggregation — unique-pitcher counts per
(team, year, game) group, then the mean per (team, year) — produces the
same set of output rows on any permutation of the input records. -/
theorem aggregation_perm_invariant (l1 l2 : List PRec) (hp : l1.Perm l2) :
    aggregateRows l1 = aggregateRows l2 := by
  have hpc : ∀ k, pitcherCount l1 k = pitcherCount l2 k := by
    intro k
    unfold pitcherCount
    exact (((hp.filter _).map _).dedup).length_eq
  have hgk : (gameKeysOf l1).Perm (gameKeysOf l2) := (hp.map gameKey).dedup
  have havg : ∀ t, avgPitcherCount l1 t = avgPitcherCount l2 t := by
    intro t
    unfold avgPitcherCount
    have hf : ((gameKeysOf l1).filter fun k => k.1 == t.1 && k.2.1 == t.2).Perm
        ((gameKeysOf l2).filter fun k => k.1 == t.1 && k.2.1 == t.2) :=
      hgk.filter _
    have hlen :
        ((gameKeysOf l1).filter fun k => k.1 == t.1 && k.2.1 == t.2).length =
          ((gameKeysOf l2).filter fun k => k.1 == t.1 && k.2.1 == t.2).length :=
      hf.length_eq
    have hmapeq :
        (((gameKeysOf l1).filter fun k => k.1 == t.1 && k.2.1 == t.2).map
            fun k => (pitcherCount l1 k : ℚ)) =
          ((gameKeysOf l1).filter fun k => k.1 == t.1 && k.2.1 == t.2).map
            fun k => (pitcherCount l2 k : ℚ) :=
      List.map_congr_left fun a _ => by rw [hpc a]
    have hsum :
        ((((gameKeysOf l1).filter fun k => k.1 == t.1 && k.2.1 == t.2).map
            fun k => (pitcherCount l2 k : ℚ)).sum) =
          (((gameKeysOf l2).filter fun k => k.1 == t.1 && k.2.1 == t.2).map
            fun k => (pitcherCount l2 k : ℚ)).sum :=
      (hf.map _).sum_eq
    rw [hmapeq, hsum, hlen]
  unfold aggregateRows
  have hty : (l1.map tyKey).dedup.toFinset = (l2.map tyKey).dedup.toFinset :=
    List.toFinset_eq_of_perm _ _ ((hp.map tyKey).dedup)
  rw [hty]
  have hfun : (fun t : String × Int => (t.1, t.2, avgPitcherCount l1 t)) =
      fun t => (t.1, t.2, avgPitcherCount l2 t) := by
    funext t
    rw [havg t]
  rw [hfun]

/-- Concrete instance of `aggregation_perm_invariant` on a transposed
pair of records. -/
theorem aggregation_perm_invariant_witness :
    aggregateRows [pr1, pr2] = aggregateRows [pr2, pr1] :=
  aggregation_perm_invariant [pr1, pr2] [pr2, pr1] (List.Perm.swap pr2 pr1 [])
